import Mathlib

/- Shallow embedding of the duckdb-stata `.dta` reader
   (src/stata_parser.cpp, src/stata_reader.cpp, src/include/stata_parser.hpp)
   and theorems checking its natural-language specification.

   Conventions: on-disk bytes are `List Nat` with entries < 256 (reads
   normalise with `% 256`, as a C++ byte stream only yields such values);
   C++ strings decoded from the file are kept as byte lists; IEEE floats
   are decoded exactly into `FVal` (a finite rational, an infinity, or NaN);
   the host's native byte order is an explicit `Bool` parameter mirroring
   `native_is_big_endian_`, which the source detects at run time. -/

namespace StataDta

deriving instance DecidableEq for Except

/-- Error kinds, mirroring the exception classes thrown by the source
    (`IOException`, `InvalidInputException` for the version check,
    `NotImplementedException` for unsupported types, and
    `std::invalid_argument` out of `std::stoi`). -/
inductive Err where
  | eof
  | invalidXml
  | sectionNotFound
  | insufficientData
  | dataNotFound
  | unsupportedVersion
  | notImplemented
  | stoiInvalid
deriving DecidableEq

/-- Which error kinds correspond to C++ `IOException` (the only class caught
    by the inner `catch (const IOException&)` handlers in the source). -/
def Err.isIO : Err → Bool
  | .eof => true
  | .invalidXml => true
  | .sectionNotFound => true
  | .insufficientData => true
  | .dataNotFound => true
  | _ => false

/-- Big-endian value of a byte list. -/
def beNat (bs : List Nat) : Nat := bs.foldl (fun a b => a * 256 + b) 0

/-- Value of a byte list under a selectable byte order. -/
def readNat (big : Bool) (bs : List Nat) : Nat :=
  if big then beNat bs else beNat bs.reverse

/-- Two's-complement reinterpretation of a `w`-byte unsigned value, as done by
    the `reinterpret_cast` / `static_cast` to the signed type in the source. -/
def toSigned (w : Nat) (n : Nat) : Int :=
  if n < 2 ^ (8 * w - 1) then (n : Int) else (n : Int) - 2 ^ (8 * w)

/-- Exact value of an IEEE-754 binary float: finite rational, infinity or NaN. -/
inductive FVal where
  | finite (q : ℚ)
  | inf (neg : Bool)
  | nan
deriving DecidableEq

/-- Exact decoding of a 32-bit IEEE-754 bit pattern. -/
def decodeF32 (bits : Nat) : FVal :=
  let s : Nat := bits / 2 ^ 31 % 2
  let e : Nat := bits / 2 ^ 23 % 2 ^ 8
  let f : Nat := bits % 2 ^ 23
  let sign : ℚ := if s = 1 then -1 else 1
  if e = 255 then (if f = 0 then .inf (s = 1) else .nan)
  else if e = 0 then .finite (sign * (f : ℚ) / 2 ^ 149)
  else .finite (sign * ((2 ^ 23 + f : Nat) : ℚ) * (2 : ℚ) ^ e / 2 ^ 150)

/-- Exact decoding of a 64-bit IEEE-754 bit pattern. -/
def decodeF64 (bits : Nat) : FVal :=
  let s : Nat := bits / 2 ^ 63 % 2
  let e : Nat := bits / 2 ^ 52 % 2 ^ 11
  let f : Nat := bits % 2 ^ 52
  let sign : ℚ := if s = 1 then -1 else 1
  if e = 2047 then (if f = 0 then .inf (s = 1) else .nan)
  else if e = 0 then .finite (sign * (f : ℚ) / 2 ^ 1074)
  else .finite (sign * ((2 ^ 52 + f : Nat) : ℚ) * (2 : ℚ) ^ e / 2 ^ 1075)

/-- The `std::isnan` test used for `FLOAT` missing detection. -/
def FVal.isNan : FVal → Bool
  | .nan => true
  | _ => false

/-- The C++ comparison `v >= t` of an IEEE value against a finite threshold:
    NaN compares false, positive infinity compares true. -/
def FVal.geQ : FVal → ℚ → Bool
  | .finite q, t => decide (t ≤ q)
  | .inf neg, _ => !neg
  | .nan, _ => false

/-- Exact rational value of the C++ `double` literal `8.988e+307` used as the
    `DOUBLE` missing-value threshold in `StataParser::IsMissingValue`. -/
def dblMissingThreshold : ℚ := 2251683152470081 * 2 ^ 972

/-- Type code of `StataDataType::BYTE`. -/
def BYTE : Nat := 251

/-- Type code of `StataDataType::INT`. -/
def INT : Nat := 252

/-- Type code of `StataDataType::LONG`. -/
def LONG : Nat := 253

/-- Type code of `StataDataType::FLOAT`. -/
def FLOAT : Nat := 254

/-- Type code of `StataDataType::DOUBLE`. -/
def DOUBLE : Nat := 255

/-- `StataParser::IsStringType`: codes 1..244 are string types. -/
def IsStringType (ty : Nat) : Bool := decide (1 ≤ ty ∧ ty ≤ 244)

/-- `StataParser::IsMissingValue`. The raw cell bytes are reinterpreted in the
    host's NATIVE byte order (plain pointer casts in the source, no byte swap),
    which is why `nativeBig` and not the file's byte order appears here. -/
def IsMissingValue (ty : Nat) (nativeBig : Bool) (data : List Nat) : Bool :=
  if IsStringType ty then false
  else if ty = BYTE then decide (101 ≤ toSigned 1 (readNat nativeBig (data.take 1)))
  else if ty = INT then decide (32741 ≤ toSigned 2 (readNat nativeBig (data.take 2)))
  else if ty = LONG then decide (2147483621 ≤ toSigned 4 (readNat nativeBig (data.take 4)))
  else if ty = FLOAT then (decodeF32 (readNat nativeBig (data.take 4))).isNan
  else if ty = DOUBLE then (decodeF64 (readNat nativeBig (data.take 8))).geQ dblMissingThreshold
  else false

/-- A decoded cell value as emitted into the output vector. -/
inductive CellVal where
  | i8 (v : Int)
  | i16 (v : Int)
  | i32 (v : Int)
  | f32 (v : FVal)
  | f64 (v : FVal)
  | str (s : List Nat)
deriving DecidableEq

/-- `StataReader::ConvertStataValue`: `none` marks the destination cell NULL.
    The emitted numeric value is the native read followed by a byte swap when
    the file and host byte orders differ, whose net effect is a read in the
    FILE byte order `fileBig`; the missing check, by contrast, sees the
    native-order reinterpretation. -/
def ConvertStataValue (ty : Nat) (fileBig nativeBig : Bool) (data : List Nat) :
    Except Err (Option CellVal) :=
  if IsMissingValue ty nativeBig data then .ok none
  else if ty = BYTE then .ok (some (.i8 (toSigned 1 (readNat fileBig (data.take 1)))))
  else if ty = INT then .ok (some (.i16 (toSigned 2 (readNat fileBig (data.take 2)))))
  else if ty = LONG then .ok (some (.i32 (toSigned 4 (readNat fileBig (data.take 4)))))
  else if ty = FLOAT then .ok (some (.f32 (decodeF32 (readNat fileBig (data.take 4)))))
  else if ty = DOUBLE then .ok (some (.f64 (decodeF64 (readNat fileBig (data.take 8)))))
  else .error .notImplemented

example : ConvertStataValue INT false false [229, 127] = .ok none := by decide

example : ConvertStataValue INT true false [127, 229] = .ok (some (.i16 32741)) := by decide

example : ConvertStataValue BYTE false false [100] = .ok (some (.i8 100)) := by decide

example : ConvertStataValue BYTE false false [101] = .ok none := by decide

/-- Index of the first NUL byte of a buffer, if any. -/
def firstNulIdx : List Nat → Option Nat
  | [] => none
  | b :: rest => if b = 0 then some 0 else (firstNulIdx rest).map (· + 1)

/-- The actual_length computed by the scan loop of
    `StataParser::ReadNullTerminatedString`: the index of the first NUL, left
    at its initial value 0 when the buffer holds no NUL at all. -/
def ntsLen (bs : List Nat) : Nat := (firstNulIdx bs).getD 0

/-- `StataParser::ReadNullTerminatedString` applied to an already-read buffer
    of max_length bytes. -/
def nullTerminated (bs : List Nat) : List Nat := bs.take (ntsLen bs)

/-- The string-cell truncation done inline in `StataReader::ReadDataChunk`
    (and in `DecodeString`): the prefix before the first NUL, or the whole
    buffer when it holds no NUL. -/
def truncAtNul (bs : List Nat) : List Nat :=
  match firstNulIdx bs with
  | some i => bs.take i
  | none => bs

/-- Legacy character type codes, the `old_type_mapping_` table. -/
def oldTypeMapping (code : Nat) : Option Nat :=
  if code = 98 then some BYTE
  else if code = 105 then some INT
  else if code = 108 then some LONG
  else if code = 102 then some FLOAT
  else if code = 100 then some DOUBLE
  else none

/-- On-disk byte widths, the `type_size_mapping_` table; looked up with
    `std::map::operator[]`, whose miss inserts and returns a
    value-initialised 0. -/
def typeSizeMapping (ty : Nat) : Nat :=
  if ty = BYTE then 1
  else if ty = INT then 2
  else if ty = LONG then 4
  else if ty = FLOAT then 4
  else if ty = DOUBLE then 8
  else 0

/-- One decoded column of metadata, mirroring `struct StataVariable`; byte
    lists stand for the C++ strings, numeric fields default to 0 in place of
    the indeterminate values of the default-constructed C++ members. -/
structure StataVariable where
  name : List Nat := []
  type : Nat := 0
  strLen : Nat := 0
  format : List Nat := []
  label : List Nat := []
  valueLabelName : List Nat := []
deriving DecidableEq

/-- Per-code body of the tagged (version >= 117) branch of
    `StataReader::ReadVariableTypes`; note that code 248 is deliberately
    mapped to `LONG` by the source. -/
def decodeVarTypeNew (code : Nat) (v : StataVariable) : StataVariable :=
  if 1 ≤ code ∧ code ≤ 244 then { v with type := code, strLen := code }
  else if code = 248 then { v with type := LONG }
  else if code = 254 then { v with type := FLOAT }
  else if code = 253 then { v with type := LONG }
  else if code = 252 then { v with type := INT }
  else if code = 251 then { v with type := BYTE }
  else { v with type := code }

/-- Per-code body of the legacy branch of `StataReader::ReadVariableTypes`. -/
def decodeVarTypeOld (version code : Nat) (v : StataVariable) : StataVariable :=
  if version ≤ 115 ∧ (oldTypeMapping code).isSome then
    { v with type := (oldTypeMapping code).getD 0 }
  else if 1 ≤ code ∧ code ≤ 244 then { v with type := code, strLen := code }
  else { v with type := code }

/-- Host logical column types produced for the emitted batches. -/
inductive LogicalType where
  | tinyint
  | smallint
  | integer
  | float
  | double
  | varchar
deriving DecidableEq

/-- `StataParser::StataTypeToLogicalType`; the default branch throws
    `NotImplementedException` for codes outside 1..244 and 251..255. -/
def StataTypeToLogicalType (v : StataVariable) : Except Err LogicalType :=
  if v.type = BYTE then .ok .tinyint
  else if v.type = INT then .ok .smallint
  else if v.type = LONG then .ok .integer
  else if v.type = FLOAT then .ok .float
  else if v.type = DOUBLE then .ok .double
  else if 1 ≤ v.type ∧ v.type ≤ 244 then .ok .varchar
  else .error .notImplemented

/-- Outcome of `open()` for a single tagged-dialect type code: the code is
    decoded by `ReadVariableTypes` and the stored type is then mapped by
    `StataTypeToLogicalType` inside `PrepareDataReading`. -/
def taggedTypePipeline (code : Nat) : Except Err LogicalType :=
  StataTypeToLogicalType (decodeVarTypeNew code {})

/-- Decoded file header, mirroring `struct StataHeader`; numeric fields
    default to 0 in place of the indeterminate values of the uninitialised
    C++ members. -/
structure StataHeader where
  format_version : Nat := 0
  is_big_endian : Bool := false
  filetype : Nat := 0
  nvar : Nat := 0
  nobs : Nat := 0
  data_label : List Nat := []
  timestamp : List Nat := []
deriving DecidableEq

/-- Full reader state: the byte source with its position, the byte-order
    mode, the decoded metadata, and the chunking cursor. -/
structure RSt where
  file : List Nat
  pos : Nat := 0
  isBig : Bool := false
  nativeBig : Bool := false
  header : StataHeader := {}
  vars : List StataVariable := []
  columnTypes : List LogicalType := []
  dataLocation : Nat := 0
  rowsRead : Nat := 0
  streamOpen : Bool := true
deriving DecidableEq

/-- State-threading computation with C++-style exceptions: an error carries
    the state at the throw point, as the C++ object keeps its fields. -/
def M (α : Type) : Type := RSt → Except Err α × RSt

instance : Monad M where
  pure a := fun s => (.ok a, s)
  bind x f := fun s =>
    match x s with
    | (.ok a, s1) => f a s1
    | (.error e, s1) => (.error e, s1)

/-- Reads the current state. -/
def getS : M RSt := fun s => (.ok s, s)

/-- Applies a state update. -/
def modifyS (f : RSt → RSt) : M Unit := fun s => (.ok (), f s)

/-- Throws, keeping the state at the throw point. -/
def throwE {α : Type} (e : Err) : M α := fun s => (.error e, s)

/-- Lifts a pure fallible computation. -/
def liftE {α : Type} (x : Except Err α) : M α := fun s =>
  match x with
  | .ok a => (.ok a, s)
  | .error e => (.error e, s)

/-- A `try { x } catch (const IOException&) { h }` block: only `IOException`
    kinds are caught, other exception classes propagate. -/
def tryCatchIoErr {α : Type} (x : M α) (h : M α) : M α := fun s =>
  match x s with
  | (.ok a, s1) => (.ok a, s1)
  | (.error e, s1) => if e.isIO then h s1 else (.error e, s1)

/-- Reads n raw bytes from the stream; a short read throws the `IOException`
    for an unexpected end of file, as every checked read in the source does. -/
def readBytes (n : Nat) : M (List Nat) := fun s =>
  let bs := ((s.file.drop s.pos).take n).map (· % 256)
  if bs.length = n then (.ok bs, { s with pos := s.pos + n })
  else (.error .eof, s)

/-- `StataParser::ReadUInt8`: no byte-order handling on a single byte. -/
def ReadUInt8 : M Nat := do
  let bs ← readBytes 1
  pure (beNat bs)

/-- `StataParser::ReadUInt16`: the native-order load followed by a byte swap
    when the stream and host byte orders differ is, net, a read of the two
    file bytes in the stream byte order `isBig`. -/
def ReadUInt16 : M Nat := do
  let bs ← readBytes 2
  let s ← getS
  pure (readNat s.isBig bs)

/-- `StataParser::ReadUInt32`, with the same net byte-order effect. -/
def ReadUInt32 : M Nat := do
  let bs ← readBytes 4
  let s ← getS
  pure (readNat s.isBig bs)

/-- `StataParser::ReadUInt64`, with the same net byte-order effect. -/
def ReadUInt64 : M Nat := do
  let bs ← readBytes 8
  let s ← getS
  pure (readNat s.isBig bs)

/-- `StataParser::ReadString`: exactly the requested bytes, short reads fail. -/
def ReadString (n : Nat) : M (List Nat) := readBytes n

/-- `StataParser::ReadNullTerminatedString`: a checked read of max_length
    bytes, then the scan-loop truncation. -/
def ReadNullTerminatedStringM (maxLength : Nat) : M (List Nat) := do
  let bs ← readBytes maxLength
  pure (nullTerminated bs)

/-- `StataReader::SkipBytes` (a relative seek, no bounds check). -/
def SkipBytes (n : Nat) : M Unit := modifyS fun s => { s with pos := s.pos + n }

/-- `StataReader::SeekTo`. -/
def SeekTo (p : Nat) : M Unit := modifyS fun s => { s with pos := p }

/-- `std::string::substr(a, cnt)`, clamped at the end of the string. -/
def substr (bs : List Nat) (a cnt : Nat) : List Nat := (bs.drop a).take cnt

/-- Wrapping `size_t` subtraction, for the length arithmetic the source does
    on tag positions. -/
def subSz (a b : Nat) : Nat := (a + 2 ^ 64 - b) % 2 ^ 64

/-- Index of the first occurrence of `pat` in `hay` (`std::string::find`). -/
def listFind : List Nat → List Nat → Option Nat
  | hay, pat =>
    if pat.isPrefixOf hay then some 0
    else
      match hay with
      | [] => none
      | _ :: rest => (listFind rest pat).map (· + 1)

/-- `StataReader::ReadObsCount`: 64-bit on disk for versions >= 118,
    32-bit below. -/
def ReadObsCount : M Nat := do
  let s ← getS
  if s.header.format_version ≥ 118 then ReadUInt64 else ReadUInt32

/-- `StataReader::ReadDataLabel`: a 16-bit length prefix for versions >= 118,
    otherwise a NUL-padded 81-byte field (the source's version-117 branch is
    identical to its else branch). -/
def ReadDataLabel : M (List Nat) := do
  let s ← getS
  if s.header.format_version ≥ 118 then do
    let len ← ReadUInt16
    ReadString len
  else
    ReadNullTerminatedStringM 81

/-- `StataReader::ReadTimestamp` (both version branches read the same
    NUL-padded 18-byte field). -/
def ReadTimestamp : M (List Nat) := do
  ReadNullTerminatedStringM 18

/-- `StataReader::ReadOldHeader`: the legacy header, whose first byte is the
    version; the byte-order byte is compared against 0x01 only, every other
    value (0x02 included) selecting little-endian, with no validation. -/
def ReadOldHeader (firstChar : Nat) : M Unit := do
  modifyS fun s => { s with header := { s.header with format_version := firstChar } }
  let byteorder ← ReadUInt8
  modifyS fun s =>
    { s with header := { s.header with is_big_endian := byteorder == 1 },
             isBig := byteorder == 1 }
  let ft ← ReadUInt8
  modifyS fun s => { s with header := { s.header with filetype := ft } }
  SkipBytes 1
  let nv ← ReadUInt16
  modifyS fun s => { s with header := { s.header with nvar := nv } }
  let n ← ReadObsCount
  modifyS fun s => { s with header := { s.header with nobs := n } }
  let dl ← ReadDataLabel
  modifyS fun s => { s with header := { s.header with data_label := dl } }
  let ts ← ReadTimestamp
  modifyS fun s => { s with header := { s.header with timestamp := ts } }

/-- Modelling `std::stoi`: leading whitespace, an optional sign, then at least
    one decimal digit (else `std::invalid_argument`). -/
def stoiParse (bs : List Nat) : Except Err Int :=
  let bs1 := bs.dropWhile (fun b => b == 32 || b == 9 || b == 10 || b == 13)
  let signAndRest : Int × List Nat :=
    match bs1 with
    | 45 :: rest => (-1, rest)
    | 43 :: rest => (1, rest)
    | _ => (1, bs1)
  let digits := signAndRest.2.takeWhile (fun b => 48 ≤ b && b ≤ 57)
  if digits = [] then .error .stoiInvalid
  else .ok (signAndRest.1 * (digits.foldl (fun a d => a * 10 + (d - 48)) 0 : Nat))

/-- Truncation of an int to `uint8_t`, as done by the assignment to
    `header_.format_version`. -/
def intToU8 (v : Int) : Nat := (v % 256).toNat

/-- Fails with the `IOException` for a missing header tag when the position
    is absent. -/
def expectTag (o : Option Nat) : M Nat :=
  match o with
  | some i => pure i
  | none => throwE .invalidXml

/-- ASCII bytes of the opening release tag. -/
def relOpenTag : List Nat := [60, 114, 101, 108, 101, 97, 115, 101, 62]

/-- ASCII bytes of the closing release tag. -/
def relCloseTag : List Nat := [60, 47, 114, 101, 108, 101, 97, 115, 101, 62]

/-- ASCII bytes of the opening byteorder tag. -/
def byteorderOpenTag : List Nat := [60, 98, 121, 116, 101, 111, 114, 100, 101, 114, 62]

/-- ASCII bytes of the closing byteorder tag. -/
def byteorderCloseTag : List Nat := [60, 47, 98, 121, 116, 101, 111, 114, 100, 101, 114, 62]

/-- ASCII bytes of the K tag. -/
def kOpenTag : List Nat := [60, 75, 62]

/-- ASCII bytes of the N tag. -/
def nOpenTag : List Nat := [60, 78, 62]

/-- ASCII bytes of the opening label tag. -/
def labelOpenTag : List Nat := [60, 108, 97, 98, 101, 108, 62]

/-- ASCII bytes of the opening timestamp tag. -/
def tsOpenTag : List Nat := [60, 116, 105, 109, 101, 115, 116, 97, 109, 112, 62]

/-- ASCII bytes of the closing timestamp tag. -/
def tsCloseTag : List Nat := [60, 47, 116, 105, 109, 101, 115, 116, 97, 109, 112, 62]

/-- ASCII bytes of the closing header tag. -/
def headerCloseTag : List Nat := [60, 47, 104, 101, 97, 100, 101, 114, 62]

/-- `StataReader::ReadNewHeader`: reads a 500-byte window from the leading
    angle bracket, locates the literal tags in it, and pulls the binary
    fields by seeking past each tag. -/
def ReadNewHeader : M Unit := do
  let s0 ← getS
  let start := s0.pos - 1
  SeekTo start
  let xml ← ReadString 500
  let ro ← expectTag (listFind xml relOpenTag)
  let rc ← expectTag (listFind xml relCloseTag)
  let v ← liftE (stoiParse (substr xml (ro + 9) (subSz rc (ro + 9))))
  modifyS fun s => { s with header := { s.header with format_version := intToU8 v } }
  let bo ← expectTag (listFind xml byteorderOpenTag)
  let bc ← expectTag (listFind xml byteorderCloseTag)
  let boStr := substr xml (bo + 11) (subSz bc (bo + 11))
  modifyS fun s =>
    { s with header := { s.header with is_big_endian := boStr.getD 0 0 == 77 },
             isBig := boStr.getD 0 0 == 77 }
  let k ← expectTag (listFind xml kOpenTag)
  SeekTo (start + k + 3)
  let nv ← ReadUInt16
  modifyS fun s => { s with header := { s.header with nvar := nv } }
  let n ← expectTag (listFind xml nOpenTag)
  SeekTo (start + n + 3)
  let nobs ← ReadObsCount
  modifyS fun s => { s with header := { s.header with nobs := nobs } }
  match listFind xml labelOpenTag with
  | some l => do
    SeekTo (start + l + 7)
    let dl ← ReadDataLabel
    modifyS fun s => { s with header := { s.header with data_label := dl } }
  | none => pure ()
  match listFind xml tsOpenTag, listFind xml tsCloseTag with
  | some a, some b =>
    modifyS fun s =>
      { s with header := { s.header with timestamp := substr xml (a + 11) (subSz b (a + 11)) } }
  | _, _ => pure ()
  match listFind xml headerCloseTag with
  | some he => SeekTo (start + he + 9)
  | none => throwE .invalidXml

/-- `StataReader::ReadHeader`: dialect dispatch on the first byte, then the
    post-read version validation, which is a plain range check 105..119. -/
def ReadHeader : M Unit := do
  let c ← ReadUInt8
  if c = 60 then ReadNewHeader else ReadOldHeader c
  let s ← getS
  if s.header.format_version < 105 ∨ s.header.format_version > 119 then
    throwE .unsupportedVersion
  else
    pure ()

/-- ASCII bytes of the variable-types section name. -/
def varTypesName : List Nat :=
  [118, 97, 114, 105, 97, 98, 108, 101, 95, 116, 121, 112, 101, 115]

/-- ASCII bytes of the varnames section name. -/
def varNamesName : List Nat := [118, 97, 114, 110, 97, 109, 101, 115]

/-- ASCII bytes of the sortlist section name. -/
def sortlistName : List Nat := [115, 111, 114, 116, 108, 105, 115, 116]

/-- ASCII bytes of the formats section name. -/
def formatsName : List Nat := [102, 111, 114, 109, 97, 116, 115]

/-- ASCII bytes of the value-label-names section name. -/
def valueLabelNamesName : List Nat :=
  [118, 97, 108, 117, 101, 95, 108, 97, 98, 101, 108, 95, 110, 97, 109, 101, 115]

/-- ASCII bytes of the variable-labels section name. -/
def variableLabelsName : List Nat :=
  [118, 97, 114, 105, 97, 98, 108, 101, 95, 108, 97, 98, 101, 108, 115]

/-- ASCII bytes of the characteristics section name. -/
def characteristicsName : List Nat :=
  [99, 104, 97, 114, 97, 99, 116, 101, 114, 105, 115, 116, 105, 99, 115]

/-- ASCII bytes of the value-labels section name. -/
def valueLabelsName : List Nat :=
  [118, 97, 108, 117, 101, 95, 108, 97, 98, 101, 108, 115]

/-- `StataReader::FindXMLSection`: scans the whole file for the open and
    close tags of the named section and returns the enclosed bytes; the
    stream position is saved and restored on both outcomes, so the state is
    untouched. A miss throws an `IOException`. -/
def FindXMLSection (name : List Nat) : M (List Nat) := fun s =>
  let content := s.file.map (· % 256)
  let startTag := 60 :: (name ++ [62])
  let endTag := 60 :: 47 :: (name ++ [62])
  match listFind content startTag, listFind content endTag with
  | some a, some b =>
    let cs := a + startTag.length
    (.ok (substr content cs (subSz b cs)), s)
  | _, _ => (.error .sectionNotFound, s)

/-- The tagged-dialect loop of `StataReader::ReadVariableTypes`: one byte per
    slot, with a two-byte stride for versions >= 118. -/
def rvtNewLoop (sect : List Nat) (stride2 : Bool) : Nat → Nat → M Unit
  | _, 0 => pure ()
  | i, rem + 1 => do
    let idx := if stride2 then i * 2 else i
    if idx ≥ sect.length then throwE .insufficientData
    else do
      let code := sect.getD idx 0
      modifyS fun s =>
        { s with vars := s.vars.set i (decodeVarTypeNew code (s.vars.getD i {})) }
      rvtNewLoop sect stride2 (i + 1) rem

/-- The legacy loop of `StataReader::ReadVariableTypes`: one checked byte
    read per variable. -/
def rvtOldLoop : Nat → Nat → M Unit
  | _, 0 => pure ()
  | i, rem + 1 => do
    let code ← ReadUInt8
    modifyS fun s =>
      { s with vars :=
          s.vars.set i (decodeVarTypeOld s.header.format_version code (s.vars.getD i {})) }
    rvtOldLoop (i + 1) rem

/-- `StataReader::ReadVariableTypes`: resizes the variable array, then fills
    the type of each column from the tagged section or the legacy stream. -/
def ReadVariableTypes : M Unit := do
  modifyS fun s => { s with vars := List.replicate s.header.nvar {} }
  let s ← getS
  if s.header.format_version ≥ 117 then do
    let sect ← FindXMLSection varTypesName
    rvtNewLoop sect (s.header.format_version ≥ 118) 0 s.header.nvar
  else
    rvtOldLoop 0 s.header.nvar

/-- Generic legacy metadata loop: a NUL-padded field of width w per variable,
    stored through the given field update. -/
def legacyStrLoop (w : Nat) (f : StataVariable → List Nat → StataVariable) :
    Nat → Nat → M Unit
  | _, 0 => pure ()
  | i, rem + 1 => do
    let str ← ReadNullTerminatedStringM w
    modifyS fun s => { s with vars := s.vars.set i (f (s.vars.getD i {}) str) }
    legacyStrLoop w f (i + 1) rem

/-- The tagged-dialect loop of `StataReader::ReadVariableNames`: fixed-width
    slots taken from the section bytes, truncated at the first NUL (kept
    whole when there is none). -/
def rvnNewLoop (sect : List Nat) (nameLen : Nat) : Nat → Nat → M Unit
  | _, 0 => pure ()
  | i, rem + 1 => do
    let startPos := i * nameLen
    if startPos ≥ sect.length then throwE .insufficientData
    else do
      let raw := substr sect startPos (min nameLen (sect.length - startPos))
      modifyS fun s =>
        { s with vars := s.vars.set i { s.vars.getD i {} with name := truncAtNul raw } }
      rvnNewLoop sect nameLen (i + 1) rem

/-- `StataReader::ReadVariableNames`. -/
def ReadVariableNames : M Unit := do
  let s ← getS
  let nameLen := if s.header.format_version ≤ 117 then 33 else 129
  if s.header.format_version ≥ 117 then do
    let sect ← FindXMLSection varNamesName
    rvnNewLoop sect nameLen 0 s.header.nvar
  else
    legacyStrLoop nameLen (fun v nm => { v with name := nm }) 0 s.header.nvar

/-- `StataReader::ReadSortOrder`: the tagged dialect locates and discards the
    sortlist section (a miss is tolerated); the legacy dialect skips
    2 * (nvar + 1) bytes. -/
def ReadSortOrder : M Unit := do
  let s ← getS
  if s.header.format_version ≥ 117 then
    tryCatchIoErr (do let _ ← FindXMLSection sortlistName; pure ()) (pure ())
  else
    SkipBytes (2 * (s.header.nvar + 1))

/-- Index of the first NUL of sect at or after pos
    (`std::string::find` of a NUL from pos). -/
def findNulFrom (sect : List Nat) (pos : Nat) : Option Nat :=
  (firstNulIdx (sect.drop pos)).map (pos + ·)

/-- The shared shape of the tagged formats, value-label-names and
    variable-labels loops: a NUL search from a running position, a
    fixed-width realignment after each hit, continue-with-empty once past the
    section end, and a break (leaving the remaining entries at their default
    empty value) when no further NUL exists. -/
def alignedStrings (sect : List Nat) (w : Nat) : Nat → Nat → List (List Nat)
  | 0, _ => []
  | n + 1, pos =>
    if pos ≥ sect.length then List.replicate (n + 1) []
    else
      match findNulFrom sect pos with
      | none => sect.drop pos :: List.replicate n []
      | some e => substr sect pos (e - pos) :: alignedStrings sect w n (((pos / w) + 1) * w)

/-- Stores a per-variable byte string into each variable record in order. -/
def setVarFields (f : StataVariable → List Nat → StataVariable)
    (ws : List (List Nat)) : M Unit :=
  modifyS fun s => { s with vars := List.zipWith f s.vars ws }

/-- `StataReader::ReadFormats`. -/
def ReadFormats : M Unit := do
  let s ← getS
  let w := if s.header.format_version ≤ 117 then 49 else 57
  if s.header.format_version ≥ 117 then do
    let sect ← FindXMLSection formatsName
    setVarFields (fun v str => { v with format := str })
      (alignedStrings sect w s.header.nvar 0)
  else
    legacyStrLoop w (fun v str => { v with format := str }) 0 s.header.nvar

/-- `StataReader::ReadValueLabelNames`: as formats, but a missing tagged
    section is tolerated by blanking every entry. -/
def ReadValueLabelNames : M Unit := do
  let s ← getS
  let w := if s.header.format_version ≤ 117 then 33 else 129
  if s.header.format_version ≥ 117 then
    tryCatchIoErr
      (do
        let sect ← FindXMLSection valueLabelNamesName
        setVarFields (fun v str => { v with valueLabelName := str })
          (alignedStrings sect w s.header.nvar 0))
      (modifyS fun s1 =>
        { s1 with vars := s1.vars.map (fun v => { v with valueLabelName := [] }) })
  else
    legacyStrLoop w (fun v str => { v with valueLabelName := str }) 0 s.header.nvar

/-- `StataReader::ReadVariableLabels`: same shape as the value-label names,
    with the label widths. -/
def ReadVariableLabels : M Unit := do
  let s ← getS
  let w := if s.header.format_version ≤ 117 then 81 else 321
  if s.header.format_version ≥ 117 then
    tryCatchIoErr
      (do
        let sect ← FindXMLSection variableLabelsName
        setVarFields (fun v str => { v with label := str })
          (alignedStrings sect w s.header.nvar 0))
      (modifyS fun s1 =>
        { s1 with vars := s1.vars.map (fun v => { v with label := [] }) })
  else
    legacyStrLoop w (fun v str => { v with label := str }) 0 s.header.nvar

/-- `StataReader::ReadCharacteristics`: tagged files locate and discard the
    section (a miss is tolerated); legacy files do nothing. -/
def ReadCharacteristics : M Unit := do
  let s ← getS
  if s.header.format_version ≥ 117 then
    tryCatchIoErr (do let _ ← FindXMLSection characteristicsName; pure ()) (pure ())
  else
    pure ()

/-- `StataReader::ReadValueLabels`: same skip-only handling. -/
def ReadValueLabels : M Unit := do
  let s ← getS
  if s.header.format_version ≥ 117 then
    tryCatchIoErr (do let _ ← FindXMLSection valueLabelsName; pure ()) (pure ())
  else
    pure ()

/-- Fixed row width R: string columns contribute str_len, numeric columns the
    `type_size_mapping_` width. -/
def rowSize (vars : List StataVariable) : Nat :=
  vars.foldl
    (fun acc v => acc + (if IsStringType v.type then v.strLen else typeSizeMapping v.type)) 0

/-- ASCII bytes of the opening data tag. -/
def dataOpenTag : List Nat := [60, 100, 97, 116, 97, 62]

/-- ASCII bytes of the closing data tag. -/
def dataCloseTag : List Nat := [60, 47, 100, 97, 116, 97, 62]

/-- The column-type loop at the end of `StataReader::PrepareDataReading`,
    which throws for any column whose stored type has no logical mapping; the
    loop reads no stream state, so it is a pure map with an early error. -/
def ctMap : List StataVariable → Except Err (List LogicalType)
  | [] => .ok []
  | v :: rest => do
    let t ← StataTypeToLogicalType v
    let ts ← ctMap rest
    pure (t :: ts)

/-- `StataReader::PrepareDataReading`. Tagged dialect: the whole file is read
    back (leaving the stream at its end) and the data region is the span
    between the data tags; nobs is clamped to the whole rows that fit there.
    Legacy dialect: the data begin at the current position, plus 5 for
    exactly version 114; no size check and no nobs adjustment of any kind. -/
def PrepareDataReading : M Unit := do
  let s ← getS
  if s.header.format_version ≥ 117 then do
    let content := s.file.map (· % 256)
    match listFind content dataOpenTag, listFind content dataCloseTag with
    | some a, some b => do
      modifyS fun s1 => { s1 with dataLocation := a + 6, pos := s1.file.length }
      let xmlDataSize := subSz b (a + 6)
      let rs ← getS
      let ers := rowSize rs.vars
      if ers > 0 then
        if xmlDataSize / ers < rs.header.nobs then
          modifyS fun s1 => { s1 with header := { s1.header with nobs := xmlDataSize / ers } }
        else pure ()
      else pure ()
    | _, _ => throwE .dataNotFound
  else do
    modifyS fun s1 => { s1 with dataLocation := s1.pos }
    let s2 ← getS
    if s2.header.format_version = 114 then
      modifyS fun s1 => { s1 with dataLocation := s1.dataLocation + 5 }
    else pure ()
  let s3 ← getS
  let cts ← liftE (ctMap s3.vars)
  modifyS fun s1 => { s1 with columnTypes := cts }

/-- `StataReader::HasMoreData`. -/
def HasMoreData (s : RSt) : Bool := decide (s.rowsRead < s.header.nobs)

/-- The raw `file_stream_->read` used for numeric cells in `ReadDataChunk`,
    which has no gcount check: bytes past the end of the file come back as
    the zero fill of the value-initialised buffer. -/
def readBytesUnchecked (n : Nat) : M (List Nat) := fun s =>
  let avail := ((s.file.drop s.pos).take n).map (· % 256)
  (.ok (avail ++ List.replicate (n - avail.length) 0), { s with pos := s.pos + n })

/-- One row of the inner loop of `StataReader::ReadDataChunk`: strings by a
    checked read then NUL truncation, numerics through the raw read and
    `ConvertStataValue`; `none` is a NULL cell. -/
def readRowCells : List StataVariable → M (List (Option CellVal))
  | [] => pure []
  | v :: rest => do
    let cell ←
      if IsStringType v.type then do
        let strData ← ReadString v.strLen
        pure (some (CellVal.str (truncAtNul strData)))
      else do
        let raw ← readBytesUnchecked (typeSizeMapping v.type)
        let s ← getS
        liftE (ConvertStataValue v.type s.isBig s.nativeBig raw)
    let cells ← readRowCells rest
    pure (cell :: cells)

/-- The row loop of `StataReader::ReadDataChunk`. -/
def readRowsLoop : Nat → M (List (List (Option CellVal)))
  | 0 => pure []
  | n + 1 => do
    let s ← getS
    let row ← readRowCells s.vars
    let rows ← readRowsLoop n
    pure (row :: rows)

/-- An emitted column batch: its cardinality and its decoded rows. -/
structure Chunk where
  cardinality : Nat
  rows : List (List (Option CellVal))
deriving DecidableEq

/-- `StataReader::ReadDataChunk`: seeks to the next unread row and decodes at
    most `min(chunkSize, nobs - rows_read)` rows. -/
def ReadDataChunk (chunkSize : Nat) : M Chunk := do
  let s ← getS
  let rowsToRead := min chunkSize (s.header.nobs - s.rowsRead)
  if rowsToRead = 0 then pure { cardinality := 0, rows := [] }
  else do
    SeekTo (s.dataLocation + s.rowsRead * rowSize s.vars)
    let rows ← readRowsLoop rowsToRead
    modifyS fun s1 => { s1 with rowsRead := s1.rowsRead + rowsToRead }
    pure { cardinality := rowsToRead, rows := rows }

/-- `StataReader::ReadChunk`: the end-of-stream guard, then a fresh chunk. -/
def ReadChunk (chunkSize : Nat) : M (Option Chunk) := do
  let s ← getS
  if HasMoreData s then do
    let ch ← ReadDataChunk chunkSize
    pure (some ch)
  else
    pure none

/-- Fresh reader state over an openable byte source. -/
def initSt (file : List Nat) (nativeBig : Bool) : RSt :=
  { file := file, nativeBig := nativeBig }

/-- `StataReader::Close`: releases the stream handle. -/
def closeSt (s : RSt) : RSt := { s with streamOpen := false }

/-- The decode sequence inside the try block of `StataReader::Open`. -/
def OpenBody : M Unit := do
  ReadHeader
  ReadVariableTypes
  ReadVariableNames
  ReadSortOrder
  ReadFormats
  ReadValueLabelNames
  ReadVariableLabels
  ReadCharacteristics
  ReadValueLabels
  PrepareDataReading

/-- `StataReader::Open` over an already-openable stream: on any decoding
    error the catch handlers call `Close` — releasing the handle — and
    propagate the error; the metadata fields written before the throw stay in
    the reader object. -/
def OpenR (file : List Nat) (nativeBig : Bool) : Except Err Unit × RSt :=
  match OpenBody (initSt file nativeBig) with
  | (.ok _, s) => (.ok (), s)
  | (.error e, s) => (.error e, closeSt s)

/-- A complete legacy file with version byte 106, byte order 0x02, zero
    variables and zero observations: 4 header bytes, nvar, nobs, an 81-byte
    data label and an 18-byte timestamp, all zero. -/
def fileV106 : List Nat := [106, 2, 0, 0] ++ List.replicate 105 0

/-- The same legacy layout with version byte 99. -/
def fileV99 : List Nat := [99, 2, 0, 0] ++ List.replicate 105 0

/-- The same legacy layout with version byte 113 and byte-order byte 3. -/
def fileV113ByteOrder3 : List Nat := [113, 3, 0, 0] ++ List.replicate 105 0

/-- A little-endian (LSF) legacy version-115 file holding one `INT` column
    and one observation whose stored value is 32741 (bytes 0xE5 0x7F):
    10 header bytes, 99 bytes of label and timestamp, the type byte 105
    (the character code of the legacy int type), 200 bytes of name, sort
    order, format, value-label-name and label sections, then the cell. -/
def fileLsfInt32741 : List Nat :=
  [115, 2, 1, 0, 1, 0, 1, 0, 0, 0] ++ List.replicate 99 0 ++ [105] ++
    List.replicate 200 0 ++ [229, 127]

/-- The big-endian (MSF) serialization of the same logical file: byte order
    0x01, nvar and nobs stored big-endian, and the cell bytes 0x7F 0xE5. -/
def fileMsfInt32741 : List Nat :=
  [115, 1, 1, 0, 0, 1, 0, 0, 0, 1] ++ List.replicate 99 0 ++ [105] ++
    List.replicate 200 0 ++ [127, 229]

/-- A legacy version-113 file declaring one `BYTE` column (character code 98)
    and nobs = 5 whose data region holds only 3 bytes: the row width is 1, so
    only 3 of the 5 declared rows exist on disk. -/
def fileV113Short : List Nat :=
  [113, 2, 1, 0, 1, 0, 5, 0, 0, 0] ++ List.replicate 99 0 ++ [98] ++
    List.replicate 200 0 ++ [1, 2, 3]

/-- A fabricated reader state in the tagged dialect whose file bytes are a
    data section of 4 bytes, with one `BYTE` column and nobs = 5. -/
def taggedTruncState : RSt :=
  { file := dataOpenTag ++ [7, 8, 9, 10] ++ dataCloseTag,
    header := { format_version := 117, nobs := 5 },
    vars := [{ type := BYTE }] }

/-- A fabricated legacy reader state, version 114, cursor at 42. -/
def legacyPrepState114 : RSt :=
  { file := [], pos := 42, header := { format_version := 114, nobs := 7 }, vars := [] }

/-- A fabricated legacy reader state, version 113, cursor at 42. -/
def legacyPrepState113 : RSt :=
  { file := [], pos := 42, header := { format_version := 113, nobs := 7 }, vars := [] }

/-- A fabricated exhausted reader state: rows_read equals nobs. -/
def exhaustedState : RSt :=
  { file := List.replicate 8 1, pos := 3, header := { format_version := 113, nobs := 2 },
    vars := [{ type := BYTE }], dataLocation := 6, rowsRead := 2 }

/-- State after decoding the header of `fileV106`. -/
def v106S1 : RSt :=
  { file := fileV106, pos := 109, header := { format_version := 106 } }

/-- State after skipping the (empty) sort order of `fileV106`. -/
def v106S4 : RSt := { v106S1 with pos := 111 }

/-- Final state of the open pipeline on `fileV106`. -/
def v106S10 : RSt := { v106S4 with dataLocation := 111 }

/-- State after decoding the header of `fileV113ByteOrder3`. -/
def bo3S1 : RSt :=
  { file := fileV113ByteOrder3, pos := 109, header := { format_version := 113 } }

/-- State after skipping the (empty) sort order of `fileV113ByteOrder3`. -/
def bo3S4 : RSt := { bo3S1 with pos := 111 }

/-- Final state of the open pipeline on `fileV113ByteOrder3`. -/
def bo3S10 : RSt := { bo3S4 with dataLocation := 111 }

/-- State after decoding the header of `fileLsfInt32741`. -/
def lsfS1 : RSt :=
  { file := fileLsfInt32741, pos := 109,
    header := { format_version := 115, filetype := 1, nvar := 1, nobs := 1 } }

/-- State after decoding the variable types of `fileLsfInt32741`. -/
def lsfS2 : RSt := { lsfS1 with pos := 110, vars := [{ type := 252 }] }

/-- State after decoding the variable names of `fileLsfInt32741`. -/
def lsfS3 : RSt := { lsfS2 with pos := 143 }

/-- State after skipping the sort order of `fileLsfInt32741`. -/
def lsfS4 : RSt := { lsfS2 with pos := 147 }

/-- State after decoding the formats of `fileLsfInt32741`. -/
def lsfS5 : RSt := { lsfS2 with pos := 196 }

/-- State after decoding the value-label names of `fileLsfInt32741`. -/
def lsfS6 : RSt := { lsfS2 with pos := 229 }

/-- State after decoding the variable labels of `fileLsfInt32741`. -/
def lsfS7 : RSt := { lsfS2 with pos := 310 }

/-- Final state of the open pipeline on `fileLsfInt32741`. -/
def lsfS10 : RSt :=
  { lsfS2 with pos := 310, dataLocation := 310, columnTypes := [.smallint] }

/-- State after decoding the header of `fileMsfInt32741` (big-endian mode). -/
def msfS1 : RSt :=
  { file := fileMsfInt32741, pos := 109, isBig := true,
    header := { format_version := 115, is_big_endian := true, filetype := 1,
                nvar := 1, nobs := 1 } }

/-- State after decoding the variable types of `fileMsfInt32741`. -/
def msfS2 : RSt := { msfS1 with pos := 110, vars := [{ type := 252 }] }

/-- State after decoding the variable names of `fileMsfInt32741`. -/
def msfS3 : RSt := { msfS2 with pos := 143 }

/-- State after skipping the sort order of `fileMsfInt32741`. -/
def msfS4 : RSt := { msfS2 with pos := 147 }

/-- State after decoding the formats of `fileMsfInt32741`. -/
def msfS5 : RSt := { msfS2 with pos := 196 }

/-- State after decoding the value-label names of `fileMsfInt32741`. -/
def msfS6 : RSt := { msfS2 with pos := 229 }

/-- State after decoding the variable labels of `fileMsfInt32741`. -/
def msfS7 : RSt := { msfS2 with pos := 310 }

/-- Final state of the open pipeline on `fileMsfInt32741`. -/
def msfS10 : RSt :=
  { msfS2 with pos := 310, dataLocation := 310, columnTypes := [.smallint] }

/-- State after decoding the header of `fileV113Short`. -/
def shortS1 : RSt :=
  { file := fileV113Short, pos := 109,
    header := { format_version := 113, filetype := 1, nvar := 1, nobs := 5 } }

/-- State after decoding the variable types of `fileV113Short`. -/
def shortS2 : RSt := { shortS1 with pos := 110, vars := [{ type := 251 }] }

/-- State after decoding the variable names of `fileV113Short`. -/
def shortS3 : RSt := { shortS2 with pos := 143 }

/-- State after skipping the sort order of `fileV113Short`. -/
def shortS4 : RSt := { shortS2 with pos := 147 }

/-- State after decoding the formats of `fileV113Short`. -/
def shortS5 : RSt := { shortS2 with pos := 196 }

/-- State after decoding the value-label names of `fileV113Short`. -/
def shortS6 : RSt := { shortS2 with pos := 229 }

/-- State after decoding the variable labels of `fileV113Short`. -/
def shortS7 : RSt := { shortS2 with pos := 310 }

/-- Final state of the open pipeline on `fileV113Short`: note nobs is still
    5 although only 3 data bytes follow the data offset 310. -/
def shortS10 : RSt :=
  { shortS2 with pos := 310, dataLocation := 310, columnTypes := [.tinyint] }

/-- State after reading the first (version) byte of `fileV99`. -/
def midV99 : RSt := { file := fileV99, pos := 1 }

/-- State after `ReadOldHeader` on `fileV99`. -/
def hdrV99 : RSt := { file := fileV99, pos := 109, header := { format_version := 99 } }

/-- State after reading the first (version) byte of `fileV113ByteOrder3`. -/
def midBo3 : RSt := { file := fileV113ByteOrder3, pos := 1 }

/-- State after reading the first (version) byte of the one-byte file. -/
def mid99 : RSt := { file := [99], pos := 1 }

/-- State at the throw point of `ReadOldHeader` on the one-byte file. -/
def hdr99 : RSt := { file := [99], pos := 1, header := { format_version := 99 } }

/-- Final state of the failed open of the one-byte file: the stream handle is
    closed, the partially decoded header remains. -/
def s99Final : RSt :=
  { file := [99], pos := 1, header := { format_version := 99 }, streamOpen := false }

/-- Statement that a computation can only raise the end-of-file IOException. -/
def OnlyEof {α : Type} (x : M α) : Prop :=
  ∀ s e s1, x s = (.error e, s1) → e = Err.eof

/-- Statement that a computation leaves the decoded byte-order flags
    untouched, whether it succeeds or throws. -/
def KeepsBig {α : Type} (x : M α) : Prop :=
  ∀ s r s1, x s = (r, s1) →
    s1.header.is_big_endian = s.header.is_big_endian ∧ s1.isBig = s.isBig

theorem bindM_def {α β : Type} (x : M α) (f : α → M β) (s : RSt) :
    (x >>= f) s =
      match x s with
      | (.ok a, s1) => f a s1
      | (.error e, s1) => (.error e, s1) := rfl

theorem pureM_def {α : Type} (a : α) (s : RSt) : (pure a : M α) s = (.ok a, s) := rfl

theorem getS_def (s : RSt) : getS s = (.ok s, s) := rfl

theorem modifyS_def (f : RSt → RSt) (s : RSt) : modifyS f s = (.ok (), f s) := rfl

theorem liftE_eq {α : Type} (x : Except Err α) (s : RSt) : liftE x s = (x, s) := by
  cases x <;> rfl

theorem ReadUInt8_ok (s : RSt) (b : Nat) (s1 : RSt) (h : ReadUInt8 s = (.ok b, s1)) :
    b = (s.file.drop s.pos).headD 0 % 256 ∧ s1 = { s with pos := s.pos + 1 } := by
  unfold ReadUInt8 readBytes at h
  rw [bindM_def] at h
  cases hd : s.file.drop s.pos with
  | nil => rw [hd] at h; simp at h
  | cons x t =>
    rw [hd] at h
    simp only [List.take, List.map, List.length, if_pos] at h
    rw [pureM_def] at h
    injection h with h1 h2
    injection h1 with h3
    constructor
    · rw [← h3]; simp [beNat]
    · exact h2.symm

theorem onlyEof_pure {α : Type} (a : α) : OnlyEof (pure a : M α) := by
  intro s e s1 h
  rw [pureM_def] at h
  simp at h

theorem onlyEof_bind {α β : Type} {x : M α} {f : α → M β}
    (hx : OnlyEof x) (hf : ∀ a, OnlyEof (f a)) : OnlyEof (x >>= f) := by
  intro s e s1 h
  rw [bindM_def] at h
  cases hxs : x s with
  | mk r s2 =>
    rw [hxs] at h
    cases r with
    | ok a => exact hf a s2 e s1 h
    | error e2 =>
      injection h with h1 h2
      injection h1 with h3
      subst h3
      exact hx s e2 s2 hxs

theorem onlyEof_getS : OnlyEof getS := by
  intro s e s1 h
  simp [getS_def] at h

theorem onlyEof_modifyS (f : RSt → RSt) : OnlyEof (modifyS f) := by
  intro s e s1 h
  simp [modifyS_def] at h

theorem onlyEof_readBytes (n : Nat) : OnlyEof (readBytes n) := by
  intro s e s1 h
  unfold readBytes at h
  by_cases hl : (((s.file.drop s.pos).take n).map (· % 256)).length = n
  · rw [if_pos hl] at h; cases h
  · rw [if_neg hl] at h
    injection h with h1 h2
    injection h1 with h3
    exact h3.symm

theorem onlyEof_ite {α : Type} (c : Prop) [Decidable c] {x y : M α}
    (hx : OnlyEof x) (hy : OnlyEof y) : OnlyEof (if c then x else y) := by
  by_cases hc : c
  · rwa [if_pos hc]
  · rwa [if_neg hc]

theorem onlyEof_ReadUInt8 : OnlyEof ReadUInt8 := by
  unfold ReadUInt8
  exact onlyEof_bind (onlyEof_readBytes 1) (fun bs => onlyEof_pure _)

theorem onlyEof_ReadUInt16 : OnlyEof ReadUInt16 := by
  unfold ReadUInt16
  exact onlyEof_bind (onlyEof_readBytes 2)
    (fun bs => onlyEof_bind onlyEof_getS (fun s => onlyEof_pure _))

theorem onlyEof_ReadUInt32 : OnlyEof ReadUInt32 := by
  unfold ReadUInt32
  exact onlyEof_bind (onlyEof_readBytes 4)
    (fun bs => onlyEof_bind onlyEof_getS (fun s => onlyEof_pure _))

theorem onlyEof_ReadUInt64 : OnlyEof ReadUInt64 := by
  unfold ReadUInt64
  exact onlyEof_bind (onlyEof_readBytes 8)
    (fun bs => onlyEof_bind onlyEof_getS (fun s => onlyEof_pure _))

theorem onlyEof_ReadString (n : Nat) : OnlyEof (ReadString n) := by
  unfold ReadString
  exact onlyEof_readBytes n

theorem onlyEof_ReadNullTerminatedStringM (n : Nat) : OnlyEof (ReadNullTerminatedStringM n) := by
  unfold ReadNullTerminatedStringM
  exact onlyEof_bind (onlyEof_readBytes n) (fun bs => onlyEof_pure _)

theorem onlyEof_SkipBytes (n : Nat) : OnlyEof (SkipBytes n) := by
  unfold SkipBytes
  exact onlyEof_modifyS _

theorem onlyEof_ReadObsCount : OnlyEof ReadObsCount := by
  unfold ReadObsCount
  exact onlyEof_bind onlyEof_getS
    (fun s => onlyEof_ite _ onlyEof_ReadUInt64 onlyEof_ReadUInt32)

theorem onlyEof_ReadDataLabel : OnlyEof ReadDataLabel := by
  unfold ReadDataLabel
  exact onlyEof_bind onlyEof_getS
    (fun s => onlyEof_ite _
      (onlyEof_bind onlyEof_ReadUInt16 (fun len => onlyEof_ReadString len))
      (onlyEof_ReadNullTerminatedStringM 81))

theorem onlyEof_ReadTimestamp : OnlyEof ReadTimestamp := by
  unfold ReadTimestamp
  exact onlyEof_ReadNullTerminatedStringM 18

theorem onlyEof_ReadOldHeader (c : Nat) : OnlyEof (ReadOldHeader c) := by
  unfold ReadOldHeader
  exact onlyEof_bind (onlyEof_modifyS _) (fun _ =>
    onlyEof_bind onlyEof_ReadUInt8 (fun bo =>
      onlyEof_bind (onlyEof_modifyS _) (fun _ =>
        onlyEof_bind onlyEof_ReadUInt8 (fun ft =>
          onlyEof_bind (onlyEof_modifyS _) (fun _ =>
            onlyEof_bind (onlyEof_SkipBytes 1) (fun _ =>
              onlyEof_bind onlyEof_ReadUInt16 (fun nv =>
                onlyEof_bind (onlyEof_modifyS _) (fun _ =>
                  onlyEof_bind onlyEof_ReadObsCount (fun n =>
                    onlyEof_bind (onlyEof_modifyS _) (fun _ =>
                      onlyEof_bind onlyEof_ReadDataLabel (fun dl =>
                        onlyEof_bind (onlyEof_modifyS _) (fun _ =>
                          onlyEof_bind onlyEof_ReadTimestamp (fun ts =>
                            onlyEof_modifyS _)))))))))))))

theorem keepsBig_pure {α : Type} (a : α) : KeepsBig (pure a : M α) := by
  intro s r s1 h
  rw [pureM_def] at h
  injection h with h1 h2
  rw [← h2]
  exact ⟨rfl, rfl⟩

theorem keepsBig_bind {α β : Type} {x : M α} {f : α → M β}
    (hx : KeepsBig x) (hf : ∀ a, KeepsBig (f a)) : KeepsBig (x >>= f) := by
  intro s r s1 h
  rw [bindM_def] at h
  cases hxs : x s with
  | mk r2 s2 =>
    rw [hxs] at h
    cases r2 with
    | ok a =>
      have h1 := hx s (.ok a) s2 hxs
      have h2 := hf a s2 r s1 h
      exact ⟨h2.1.trans h1.1, h2.2.trans h1.2⟩
    | error e2 =>
      injection h with h1 h2
      rw [← h2]
      exact hx s (.error e2) s2 hxs

theorem keepsBig_getS : KeepsBig getS := by
  intro s r s1 h
  rw [getS_def] at h
  injection h with h1 h2
  rw [← h2]
  exact ⟨rfl, rfl⟩

theorem keepsBig_ite {α : Type} (c : Prop) [Decidable c] {x y : M α}
    (hx : KeepsBig x) (hy : KeepsBig y) : KeepsBig (if c then x else y) := by
  by_cases hc : c
  · rwa [if_pos hc]
  · rwa [if_neg hc]

theorem keepsBig_readBytes (n : Nat) : KeepsBig (readBytes n) := by
  intro s r s1 h
  unfold readBytes at h
  by_cases hl : (((s.file.drop s.pos).take n).map (· % 256)).length = n
  · rw [if_pos hl] at h
    injection h with h1 h2
    rw [← h2]
    exact ⟨rfl, rfl⟩
  · rw [if_neg hl] at h
    injection h with h1 h2
    rw [← h2]
    exact ⟨rfl, rfl⟩

theorem keepsBig_ReadUInt8 : KeepsBig ReadUInt8 := by
  unfold ReadUInt8
  exact keepsBig_bind (keepsBig_readBytes 1) (fun bs => keepsBig_pure _)

theorem keepsBig_ReadUInt16 : KeepsBig ReadUInt16 := by
  unfold ReadUInt16
  exact keepsBig_bind (keepsBig_readBytes 2)
    (fun bs => keepsBig_bind keepsBig_getS (fun s => keepsBig_pure _))

theorem keepsBig_ReadUInt32 : KeepsBig ReadUInt32 := by
  unfold ReadUInt32
  exact keepsBig_bind (keepsBig_readBytes 4)
    (fun bs => keepsBig_bind keepsBig_getS (fun s => keepsBig_pure _))

theorem keepsBig_ReadUInt64 : KeepsBig ReadUInt64 := by
  unfold ReadUInt64
  exact keepsBig_bind (keepsBig_readBytes 8)
    (fun bs => keepsBig_bind keepsBig_getS (fun s => keepsBig_pure _))

theorem keepsBig_ReadString (n : Nat) : KeepsBig (ReadString n) := by
  unfold ReadString
  exact keepsBig_readBytes n

theorem keepsBig_ReadNullTerminatedStringM (n : Nat) :
    KeepsBig (ReadNullTerminatedStringM n) := by
  unfold ReadNullTerminatedStringM
  exact keepsBig_bind (keepsBig_readBytes n) (fun bs => keepsBig_pure _)

theorem keepsBig_SkipBytes (n : Nat) : KeepsBig (SkipBytes n) := by
  intro s r s1 h
  unfold SkipBytes at h
  rw [modifyS_def] at h
  injection h with h1 h2
  rw [← h2]
  exact ⟨rfl, rfl⟩

theorem keepsBig_ReadObsCount : KeepsBig ReadObsCount := by
  unfold ReadObsCount
  exact keepsBig_bind keepsBig_getS
    (fun s => keepsBig_ite _ keepsBig_ReadUInt64 keepsBig_ReadUInt32)

theorem keepsBig_ReadDataLabel : KeepsBig ReadDataLabel := by
  unfold ReadDataLabel
  exact keepsBig_bind keepsBig_getS
    (fun s => keepsBig_ite _
      (keepsBig_bind keepsBig_ReadUInt16 (fun len => keepsBig_ReadString len))
      (keepsBig_ReadNullTerminatedStringM 81))

theorem keepsBig_ReadTimestamp : KeepsBig ReadTimestamp := by
  unfold ReadTimestamp
  exact keepsBig_ReadNullTerminatedStringM 18

/-- Every state update that leaves the byte-order flags of the state alone
    keeps them. -/
theorem keepsBig_modifyS_of (f : RSt → RSt)
    (hf : ∀ s, (f s).header.is_big_endian = s.header.is_big_endian ∧ (f s).isBig = s.isBig) :
    KeepsBig (modifyS f) := by
  intro s r s1 h
  rw [modifyS_def] at h
  injection h with h1 h2
  rw [← h2]
  exact hf s

/-- Decomposition of a successful bind into its two successful stages. -/
theorem bindM_ok {α β : Type} {x : M α} {f : α → M β} {s s2 : RSt} {b : β}
    (h : (x >>= f) s = (.ok b, s2)) :
    ∃ a s1, x s = (.ok a, s1) ∧ f a s1 = (.ok b, s2) := by
  rw [bindM_def] at h
  cases hx : x s with
  | mk r s1 =>
    rw [hx] at h
    cases r with
    | ok a => exact ⟨a, s1, rfl, h⟩
    | error e => simp at h

/-- The state produced by a `modifyS` step. -/
theorem modifyS_ok {f : RSt → RSt} {s s1 : RSt} {a : Unit}
    (h : modifyS f s = (.ok a, s1)) : s1 = f s := by
  rw [modifyS_def] at h
  injection h with h1 h2
  exact h2.symm

/-- After a successful `ReadOldHeader`, the stored byte-order flag is the
    equality test of the byte-order byte (the byte at the entry position)
    against 0x01, and nothing else: no other value is rejected. -/
theorem ReadOldHeader_ok_big (c : Nat) (s sF : RSt)
    (h : ReadOldHeader c s = (.ok (), sF)) :
    sF.header.is_big_endian = ((s.file.drop s.pos).headD 0 % 256 == 1) ∧
    sF.isBig = ((s.file.drop s.pos).headD 0 % 256 == 1) := by
  unfold ReadOldHeader at h
  obtain ⟨a1, s1, h1, h⟩ := bindM_ok h
  obtain ⟨bo, s2, h2, h⟩ := bindM_ok h
  obtain ⟨a3, s3, h3, h⟩ := bindM_ok h
  have hs1 := modifyS_ok h1
  obtain ⟨hbo, hs2⟩ := ReadUInt8_ok _ bo s2 h2
  have hs3 := modifyS_ok h3
  have hk : sF.header.is_big_endian = s3.header.is_big_endian ∧ sF.isBig = s3.isBig := by
    refine keepsBig_bind keepsBig_ReadUInt8 (fun ft =>
      keepsBig_bind (keepsBig_modifyS_of _ ?_) (fun _ =>
        keepsBig_bind (keepsBig_SkipBytes 1) (fun _ =>
          keepsBig_bind keepsBig_ReadUInt16 (fun nv =>
            keepsBig_bind (keepsBig_modifyS_of _ ?_) (fun _ =>
              keepsBig_bind keepsBig_ReadObsCount (fun n =>
                keepsBig_bind (keepsBig_modifyS_of _ ?_) (fun _ =>
                  keepsBig_bind keepsBig_ReadDataLabel (fun dl =>
                    keepsBig_bind (keepsBig_modifyS_of _ ?_) (fun _ =>
                      keepsBig_bind keepsBig_ReadTimestamp (fun ts =>
                        keepsBig_modifyS_of _ ?_)))))))))) s3 (.ok ()) sF h
    all_goals exact fun s4 => ⟨rfl, rfl⟩
  subst hs3
  subst hs2
  subst hs1
  subst hbo
  exact ⟨hk.1, hk.2⟩

/-- A list without NUL leaves the scan loop at its initial index 0. -/
theorem firstNulIdx_eq_none (bs : List Nat) (h : 0 ∉ bs) : firstNulIdx bs = none := by
  induction bs with
  | nil => rfl
  | cons b t ih =>
    simp only [List.mem_cons, not_or] at h
    unfold firstNulIdx
    rw [if_neg (fun hb => h.1 hb.symm), ih h.2]
    rfl

/-- A list containing NUL yields a hit in the scan loop. -/
theorem firstNulIdx_of_mem (bs : List Nat) (h : 0 ∈ bs) : ∃ j, firstNulIdx bs = some j := by
  induction bs with
  | nil => cases h
  | cons b t ih =>
    by_cases hb : b = 0
    · exact ⟨0, by unfold firstNulIdx; rw [if_pos hb]⟩
    · have ht : 0 ∈ t := by
        rcases List.mem_cons.mp h with h1 | h1
        · exact absurd h1.symm hb
        · exact h1
      obtain ⟨j, hj⟩ := ih ht
      exact ⟨j + 1, by unfold firstNulIdx; rw [if_neg hb, hj]; rfl⟩

/-- On a buffer holding a NUL, the scan-loop truncation is the prefix
    strictly before the first NUL. -/
theorem nullTerminated_of_mem (bs : List Nat) (h : 0 ∈ bs) :
    nullTerminated bs = bs.takeWhile (fun b => !(b == 0)) := by
  induction bs with
  | nil => cases h
  | cons b t ih =>
    by_cases hb : b = 0
    · subst hb
      unfold nullTerminated ntsLen firstNulIdx
      simp [List.takeWhile]
    · have ht : 0 ∈ t := by
        rcases List.mem_cons.mp h with h1 | h1
        · exact absurd h1.symm hb
        · exact h1
      obtain ⟨j, hj⟩ := firstNulIdx_of_mem t ht
      have iht := ih ht
      unfold nullTerminated ntsLen at iht ⊢
      unfold firstNulIdx
      rw [if_neg hb, hj]
      rw [hj] at iht
      simp only [Option.map_some, Option.getD_some] at iht ⊢
      have hbt : (!(b == 0)) = true := by simp [hb]
      simp [List.takeWhile, hbt, iht]

/-- The open of the one-byte file fails at the byte-order read, closing the
    handle and keeping the version field written before the throw. -/
theorem open99 : OpenR [99] false = (.error .eof, s99Final) := rfl

/-- Composition of the ten decode stages of `Open` from the per-stage
    results. -/
theorem OpenBody_of_steps {s0 s1 s2 s3 s4 s5 s6 s7 s8 s9 s10 : RSt}
    (h1 : ReadHeader s0 = (.ok (), s1))
    (h2 : ReadVariableTypes s1 = (.ok (), s2))
    (h3 : ReadVariableNames s2 = (.ok (), s3))
    (h4 : ReadSortOrder s3 = (.ok (), s4))
    (h5 : ReadFormats s4 = (.ok (), s5))
    (h6 : ReadValueLabelNames s5 = (.ok (), s6))
    (h7 : ReadVariableLabels s6 = (.ok (), s7))
    (h8 : ReadCharacteristics s7 = (.ok (), s8))
    (h9 : ReadValueLabels s8 = (.ok (), s9))
    (h10 : PrepareDataReading s9 = (.ok (), s10)) :
    OpenBody s0 = (.ok (), s10) := by
  unfold OpenBody
  simp only [bindM_def, h1, h2, h3, h4, h5, h6, h7, h8, h9, h10]

/-- A successful decode sequence makes `Open` succeed with that state. -/
theorem OpenR_of_body {file : List Nat} {native : Bool} {sF : RSt}
    (h : OpenBody (initSt file native) = (.ok (), sF)) :
    OpenR file native = (.ok (), sF) := by
  unfold OpenR
  rw [h]

theorem v106Step1 : ReadHeader (initSt fileV106 false) = (.ok (), v106S1) := rfl

theorem v106Step2 : ReadVariableTypes v106S1 = (.ok (), v106S1) := rfl

theorem v106Step3 : ReadVariableNames v106S1 = (.ok (), v106S1) := rfl

theorem v106Step4 : ReadSortOrder v106S1 = (.ok (), v106S4) := rfl

theorem v106Step5 : ReadFormats v106S4 = (.ok (), v106S4) := rfl

theorem v106Step6 : ReadValueLabelNames v106S4 = (.ok (), v106S4) := rfl

theorem v106Step7 : ReadVariableLabels v106S4 = (.ok (), v106S4) := rfl

theorem v106Step8 : ReadCharacteristics v106S4 = (.ok (), v106S4) := rfl

theorem v106Step9 : ReadValueLabels v106S4 = (.ok (), v106S4) := rfl

theorem v106Step10 : PrepareDataReading v106S4 = (.ok (), v106S10) := rfl

theorem v106Open : OpenR fileV106 false = (.ok (), v106S10) :=
  OpenR_of_body (OpenBody_of_steps v106Step1 v106Step2 v106Step3 v106Step4
    v106Step5 v106Step6 v106Step7 v106Step8 v106Step9 v106Step10)

theorem bo3Step1 : ReadHeader (initSt fileV113ByteOrder3 false) = (.ok (), bo3S1) := rfl

theorem bo3Step2 : ReadVariableTypes bo3S1 = (.ok (), bo3S1) := rfl

theorem bo3Step3 : ReadVariableNames bo3S1 = (.ok (), bo3S1) := rfl

theorem bo3Step4 : ReadSortOrder bo3S1 = (.ok (), bo3S4) := rfl

theorem bo3Step5 : ReadFormats bo3S4 = (.ok (), bo3S4) := rfl

theorem bo3Step6 : ReadValueLabelNames bo3S4 = (.ok (), bo3S4) := rfl

theorem bo3Step7 : ReadVariableLabels bo3S4 = (.ok (), bo3S4) := rfl

theorem bo3Step8 : ReadCharacteristics bo3S4 = (.ok (), bo3S4) := rfl

theorem bo3Step9 : ReadValueLabels bo3S4 = (.ok (), bo3S4) := rfl

theorem bo3Step10 : PrepareDataReading bo3S4 = (.ok (), bo3S10) := rfl

theorem bo3Open : OpenR fileV113ByteOrder3 false = (.ok (), bo3S10) :=
  OpenR_of_body (OpenBody_of_steps bo3Step1 bo3Step2 bo3Step3 bo3Step4
    bo3Step5 bo3Step6 bo3Step7 bo3Step8 bo3Step9 bo3Step10)

theorem lsfStep1 : ReadHeader (initSt fileLsfInt32741 false) = (.ok (), lsfS1) := rfl

theorem lsfStep2 : ReadVariableTypes lsfS1 = (.ok (), lsfS2) := rfl

theorem lsfStep3 : ReadVariableNames lsfS2 = (.ok (), lsfS3) := rfl

theorem lsfStep4 : ReadSortOrder lsfS3 = (.ok (), lsfS4) := rfl

theorem lsfStep5 : ReadFormats lsfS4 = (.ok (), lsfS5) := rfl

theorem lsfStep6 : ReadValueLabelNames lsfS5 = (.ok (), lsfS6) := rfl

theorem lsfStep7 : ReadVariableLabels lsfS6 = (.ok (), lsfS7) := rfl

theorem lsfStep8 : ReadCharacteristics lsfS7 = (.ok (), lsfS7) := rfl

theorem lsfStep9 : ReadValueLabels lsfS7 = (.ok (), lsfS7) := rfl

theorem lsfStep10 : PrepareDataReading lsfS7 = (.ok (), lsfS10) := rfl

theorem lsfOpen : OpenR fileLsfInt32741 false = (.ok (), lsfS10) :=
  OpenR_of_body (OpenBody_of_steps lsfStep1 lsfStep2 lsfStep3 lsfStep4
    lsfStep5 lsfStep6 lsfStep7 lsfStep8 lsfStep9 lsfStep10)

theorem msfStep1 : ReadHeader (initSt fileMsfInt32741 false) = (.ok (), msfS1) := rfl

theorem msfStep2 : ReadVariableTypes msfS1 = (.ok (), msfS2) := rfl

theorem msfStep3 : ReadVariableNames msfS2 = (.ok (), msfS3) := rfl

theorem msfStep4 : ReadSortOrder msfS3 = (.ok (), msfS4) := rfl

theorem msfStep5 : ReadFormats msfS4 = (.ok (), msfS5) := rfl

theorem msfStep6 : ReadValueLabelNames msfS5 = (.ok (), msfS6) := rfl

theorem msfStep7 : ReadVariableLabels msfS6 = (.ok (), msfS7) := rfl

theorem msfStep8 : ReadCharacteristics msfS7 = (.ok (), msfS7) := rfl

theorem msfStep9 : ReadValueLabels msfS7 = (.ok (), msfS7) := rfl

theorem msfStep10 : PrepareDataReading msfS7 = (.ok (), msfS10) := rfl

theorem msfOpen : OpenR fileMsfInt32741 false = (.ok (), msfS10) :=
  OpenR_of_body (OpenBody_of_steps msfStep1 msfStep2 msfStep3 msfStep4
    msfStep5 msfStep6 msfStep7 msfStep8 msfStep9 msfStep10)

theorem shortStep1 : ReadHeader (initSt fileV113Short false) = (.ok (), shortS1) := rfl

theorem shortStep2 : ReadVariableTypes shortS1 = (.ok (), shortS2) := rfl

theorem shortStep3 : ReadVariableNames shortS2 = (.ok (), shortS3) := rfl

theorem shortStep4 : ReadSortOrder shortS3 = (.ok (), shortS4) := rfl

theorem shortStep5 : ReadFormats shortS4 = (.ok (), shortS5) := rfl

theorem shortStep6 : ReadValueLabelNames shortS5 = (.ok (), shortS6) := rfl

theorem shortStep7 : ReadVariableLabels shortS6 = (.ok (), shortS7) := rfl

theorem shortStep8 : ReadCharacteristics shortS7 = (.ok (), shortS7) := rfl

theorem shortStep9 : ReadValueLabels shortS7 = (.ok (), shortS7) := rfl

theorem shortStep10 : PrepareDataReading shortS7 = (.ok (), shortS10) := rfl

theorem shortOpen : OpenR fileV113Short false = (.ok (), shortS10) :=
  OpenR_of_body (OpenBody_of_steps shortStep1 shortStep2 shortStep3 shortStep4
    shortStep5 shortStep6 shortStep7 shortStep8 shortStep9 shortStep10)

/-- C1, failing evaluation. The claim says an I16 cell is NULL iff its
    decoded value is at least 32741. On a little-endian host, the MSF cell
    bytes 0x7F 0xE5 decode to 32741, yet `ConvertStataValue` emits 32741
    instead of NULL, because `IsMissingValue` reinterprets the raw bytes in
    native order without the byte swap; the LSF serialization of the very
    same value is detected as missing. -/
theorem c1_i16_sentinel_missed_on_msf :
    ConvertStataValue INT true false [127, 229] = .ok (some (.i16 32741)) ∧
    (32741 : Int) ≥ 32741 ∧
    ConvertStataValue INT false false [229, 127] = .ok none := by
  decide

/-- C2, failing evaluation. The LSF and MSF serializations of the same
    logical file (one I16 column, one row holding 32741) are fully decoded on
    a little-endian host: the LSF batch holds a NULL cell, the MSF batch
    holds the value 32741, so the two serializations do not decode to
    identical batches. -/
theorem c2_lsf_msf_batches_differ :
    (ReadChunk 1024 (OpenR fileLsfInt32741 false).2).1 =
      .ok (some { cardinality := 1, rows := [[none]] }) ∧
    (ReadChunk 1024 (OpenR fileMsfInt32741 false).2).1 =
      .ok (some { cardinality := 1, rows := [[some (CellVal.i16 32741)]] }) := by
  rw [lsfOpen, msfOpen]
  exact ⟨rfl, rfl⟩

/-- C5: once rows_read equals nobs, `ReadChunk` with any positive cap returns
    end-of-stream, leaves the whole reader state (file position included)
    unchanged, and raises no error. -/
theorem c5_exhausted_chunk_end_of_stream (s : RSt) (cap : Nat)
    (_h1 : 1 ≤ cap) (h2 : s.rowsRead = s.header.nobs) :
    ReadChunk cap s = (.ok none, s) := by
  have hm : HasMoreData s = false := by
    unfold HasMoreData
    simp [h2]
  unfold ReadChunk
  simp only [bindM_def, getS_def, hm]
  simp [pureM_def]

/-- C5 witness: a concrete exhausted reader state. -/
theorem c5_witness :
    1 ≤ 7 ∧ exhaustedState.rowsRead = exhaustedState.header.nobs ∧
    ReadChunk 7 exhaustedState = (.ok none, exhaustedState) :=
  ⟨by decide, by decide, c5_exhausted_chunk_end_of_stream exhaustedState 7 (by decide) (by decide)⟩

/-- C7, counterexample. Tagged type code 248 lies outside 1..244 and
    251..255, yet `open()` does not fail: the code is decoded as `LONG` and
    mapped to the INTEGER logical type. -/
theorem c7_counterexample : taggedTypePipeline 248 = .ok .integer := by
  decide

set_option maxRecDepth 4096 in
theorem c7aux : ∀ c, c < 256 →
    (taggedTypePipeline c = .error .notImplemented ↔
      ¬ ((1 ≤ c ∧ c ≤ 244) ∨ c = 248 ∨ (251 ≤ c ∧ c ≤ 255))) := by
  decide

/-- C7 as amended: during `open()` of a tagged-dialect file, a variable type
    code fails with the unsupported-type error exactly when it is outside
    1..244, is not 248, and is outside 251..255; code 248 is instead decoded
    as I32. -/
theorem c7_tagged_type_code_support (code : Nat) :
    taggedTypePipeline code = .error .notImplemented ↔
      ¬ ((1 ≤ code ∧ code ≤ 244) ∨ code = 248 ∨ (251 ≤ code ∧ code ≤ 255)) := by
  rcases Nat.lt_or_ge code 256 with hc | hc
  · exact c7aux code hc
  · have e1 : taggedTypePipeline code = .error .notImplemented := by
      unfold taggedTypePipeline decodeVarTypeNew
      rw [if_neg (by omega : ¬(1 ≤ code ∧ code ≤ 244)),
          if_neg (by omega : ¬code = 248), if_neg (by omega : ¬code = 254),
          if_neg (by omega : ¬code = 253), if_neg (by omega : ¬code = 252),
          if_neg (by omega : ¬code = 251)]
      unfold StataTypeToLogicalType
      dsimp only [BYTE, INT, LONG, FLOAT, DOUBLE]
      rw [if_neg (by omega : ¬code = 251), if_neg (by omega : ¬code = 252),
          if_neg (by omega : ¬code = 253), if_neg (by omega : ¬code = 254),
          if_neg (by omega : ¬code = 255),
          if_neg (by omega : ¬(1 ≤ code ∧ code ≤ 244))]
    rw [e1]
    simp
    omega

/-- C8, counterexample. After a failed `open()` on the one-byte file holding
    0x63, the reader still exposes the partially decoded header: the version
    field 99 written before the end-of-file error remains observable, so a
    failed open does leave observable partial state. -/
theorem c8_counterexample :
    (OpenR [99] false).1 = .error .eof ∧
    (OpenR [99] false).2.header.format_version = 99 := by
  rw [open99]
  exact ⟨rfl, rfl⟩

/-- C8 as amended: on every failing path of `open()` the catch handler calls
    `Close`, so the underlying stream handle is released. -/
theorem c8_handle_released_on_failure (file : List Nat) (nativeBig : Bool)
    (e : Err) (s1 : RSt) (h : OpenR file nativeBig = (.error e, s1)) :
    s1.streamOpen = false := by
  unfold OpenR at h
  cases hb : OpenBody (initSt file nativeBig) with
  | mk r s2 =>
    rw [hb] at h
    cases r with
    | ok a => simp at h
    | error e2 =>
      injection h with h1 h2
      rw [← h2]
      rfl

/-- C8 witness: the failed open of the one-byte file has its handle
    released. -/
theorem c8_witness : s99Final.streamOpen = false :=
  c8_handle_released_on_failure [99] false .eof s99Final open99

/-- C3, counterexample. A complete legacy file with version byte 106 — a
    value outside the claimed supported set — opens successfully end to end:
    no UnsupportedVersion (and no other error) is raised. -/
theorem c3_counterexample :
    OpenR fileV106 false = (.ok (), v106S10) ∧
    v106S10.header.format_version = 106 :=
  ⟨v106Open, rfl⟩

/-- C3 as amended: after a successful legacy header read, `open()` raises
    UnsupportedVersion exactly when the decoded version lies outside the
    range 105..119; every version inside that range — 106, 107, 109, 110,
    112 and 116 included — passes the validation. -/
theorem c3_version_check_is_range (s0 s1 s2 : RSt) (c : Nat)
    (h1 : ReadUInt8 s0 = (.ok c, s1)) (h2 : c ≠ 60)
    (h3 : ReadOldHeader c s1 = (.ok (), s2)) :
    (ReadHeader s0 = ((.error Err.unsupportedVersion : Except Err Unit), s2) ↔
      (s2.header.format_version < 105 ∨ s2.header.format_version > 119)) ∧
    (105 ≤ s2.header.format_version ∧ s2.header.format_version ≤ 119 →
      ReadHeader s0 = (.ok (), s2)) := by
  have key : ReadHeader s0 =
      if s2.header.format_version < 105 ∨ s2.header.format_version > 119 then
        ((.error Err.unsupportedVersion : Except Err Unit), s2)
      else (.ok (), s2) := by
    unfold ReadHeader
    simp only [bindM_def, h1, if_neg h2, h3, getS_def]
    by_cases hv : s2.header.format_version < 105 ∨ s2.header.format_version > 119
    · rw [if_pos hv, if_pos hv]
      rfl
    · rw [if_neg hv, if_neg hv]
      rfl
  rw [key]
  by_cases hv : s2.header.format_version < 105 ∨ s2.header.format_version > 119
  · rw [if_pos hv]
    exact ⟨⟨fun _ => hv, fun _ => rfl⟩, fun hc => absurd hv (by omega)⟩
  · rw [if_neg hv]
    refine ⟨⟨fun he => ?_, fun hvv => absurd hvv hv⟩, fun _ => rfl⟩
    injection he with ha hb
    cases ha

/-- C3 witness: on the legacy file with version byte 99 the validation does
    raise UnsupportedVersion. -/
theorem c3_witness :
    ReadHeader (initSt fileV99 false) =
      ((.error Err.unsupportedVersion : Except Err Unit), hdrV99) :=
  ((c3_version_check_is_range (initSt fileV99 false) midV99 hdrV99 99
      rfl (by decide) rfl).1).mpr (by decide)

set_option maxRecDepth 8192 in
/-- C4, counterexample. A legacy version-113 file declares nobs = 5 but its
    data region holds only 3 one-byte rows; `open()` succeeds and nobs stays
    5 — it is not truncated to floor(region / row width) = 3, so the claimed
    truncation does not happen in the legacy dialect. -/
theorem c4_counterexample :
    OpenR fileV113Short false = (.ok (), shortS10) ∧
    shortS10.header.nobs = 5 ∧
    fileV113Short.length - shortS10.dataLocation = 3 ∧
    rowSize shortS10.vars = 1 :=
  ⟨shortOpen, rfl, by decide, rfl⟩

/-- C4 as amended: the defensive nobs truncation exists only in the tagged
    (version >= 117) dialect, where nobs becomes the minimum of the declared
    count and the whole rows that fit between the data tags; in the legacy
    dialect `PrepareDataReading` never adjusts nobs, whatever the region
    size. -/
theorem c4_truncation_tagged_only (s : RSt) :
    (∀ a b r s1, s.header.format_version ≥ 117 →
      listFind (s.file.map (· % 256)) dataOpenTag = some a →
      listFind (s.file.map (· % 256)) dataCloseTag = some b →
      a + 6 ≤ b → b < 2 ^ 64 → 0 < rowSize s.vars →
      PrepareDataReading s = (r, s1) →
      s1.header.nobs = min s.header.nobs ((b - (a + 6)) / rowSize s.vars)) ∧
    (∀ r s1, s.header.format_version < 117 →
      PrepareDataReading s = (r, s1) → s1.header.nobs = s.header.nobs) := by
  constructor
  · intro a b r s1 hv hfa hfb hab hb64 hrs h
    have hsub : subSz b (a + 6) = b - (a + 6) := by
      unfold subSz
      norm_num
      omega
    unfold PrepareDataReading at h
    by_cases hlt : (b - (a + 6)) / rowSize s.vars < s.header.nobs
    · cases hm : ctMap s.vars with
      | ok cts =>
        simp only [bindM_def, getS_def, if_pos hv, hfa, hfb, modifyS_def, liftE_eq,
          hsub, if_pos hrs, if_pos hlt, hm] at h
        injection h with ha hb
        rw [← hb]
        exact (Nat.min_eq_right (Nat.le_of_lt hlt)).symm
      | error e =>
        simp only [bindM_def, getS_def, if_pos hv, hfa, hfb, modifyS_def, liftE_eq,
          hsub, if_pos hrs, if_pos hlt, hm] at h
        injection h with ha hb
        rw [← hb]
        exact (Nat.min_eq_right (Nat.le_of_lt hlt)).symm
    · cases hm : ctMap s.vars with
      | ok cts =>
        simp only [bindM_def, getS_def, if_pos hv, hfa, hfb, modifyS_def, liftE_eq,
          hsub, if_pos hrs, if_neg hlt, pureM_def, hm] at h
        injection h with ha hb
        rw [← hb]
        exact (Nat.min_eq_left (Nat.le_of_not_lt hlt)).symm
      | error e =>
        simp only [bindM_def, getS_def, if_pos hv, hfa, hfb, modifyS_def, liftE_eq,
          hsub, if_pos hrs, if_neg hlt, pureM_def, hm] at h
        injection h with ha hb
        rw [← hb]
        exact (Nat.min_eq_left (Nat.le_of_not_lt hlt)).symm
  · intro r s1 hv h
    have hnot : ¬ s.header.format_version ≥ 117 := by omega
    unfold PrepareDataReading at h
    by_cases h114 : s.header.format_version = 114
    · cases hm : ctMap s.vars with
      | ok cts =>
        simp only [bindM_def, getS_def, if_neg hnot, if_pos h114, modifyS_def,
          liftE_eq, hm] at h
        injection h with ha hb
        rw [← hb]
      | error e =>
        simp only [bindM_def, getS_def, if_neg hnot, if_pos h114, modifyS_def,
          liftE_eq, hm] at h
        injection h with ha hb
        rw [← hb]
    · cases hm : ctMap s.vars with
      | ok cts =>
        simp only [bindM_def, getS_def, if_neg hnot, if_neg h114, modifyS_def,
          liftE_eq, pureM_def, hm] at h
        injection h with ha hb
        rw [← hb]
      | error e =>
        simp only [bindM_def, getS_def, if_neg hnot, if_neg h114, modifyS_def,
          liftE_eq, pureM_def, hm] at h
        injection h with ha hb
        rw [← hb]

/-- C4 witness: a tagged state with a 4-byte data region and nobs = 5 is
    truncated to 4 rows; a legacy state keeps its nobs. -/
theorem c4_witness :
    (PrepareDataReading taggedTruncState).2.header.nobs =
      min taggedTruncState.header.nobs
        ((10 - (0 + 6)) / rowSize taggedTruncState.vars) ∧
    (PrepareDataReading legacyPrepState113).2.header.nobs =
      legacyPrepState113.header.nobs :=
  ⟨(c4_truncation_tagged_only taggedTruncState).1 0 10 _ _ (by decide) (by decide)
      (by decide) (by decide) (by decide) (by decide) rfl,
   (c4_truncation_tagged_only legacyPrepState113).2 _ _ (by decide) rfl⟩

/-- C6, counterexample. A legacy file whose byte-order byte is 0x03 — neither
    0x01 nor 0x02 — opens successfully as little-endian: no InvalidFormat is
    raised. -/
theorem c6_counterexample :
    OpenR fileV113ByteOrder3 false = (.ok (), bo3S10) ∧
    bo3S10.header.is_big_endian = false :=
  ⟨bo3Open, rfl⟩

/-- C6 as amended: the legacy byte-order byte is compared against 0x01 only —
    0x01 selects big-endian and every other value (0x02 and invalid values
    alike) selects little-endian — and `ReadOldHeader` can raise only the
    end-of-file IOException, never an InvalidFormat validation error. -/
theorem c6_byteorder_not_validated (c : Nat) (s sF : RSt) :
    (ReadOldHeader c s = (.ok (), sF) →
      sF.header.is_big_endian = ((s.file.drop s.pos).headD 0 % 256 == 1)) ∧
    (∀ e s1, ReadOldHeader c s = (.error e, s1) → e = Err.eof) :=
  ⟨fun h => (ReadOldHeader_ok_big c s sF h).1,
   fun e s1 h => onlyEof_ReadOldHeader c s e s1 h⟩

/-- C6 witness: the byte-order byte 3 of `fileV113ByteOrder3` yields
    little-endian, and a truncated header raises only the end-of-file
    error. -/
theorem c6_witness :
    bo3S1.header.is_big_endian = ((midBo3.file.drop midBo3.pos).headD 0 % 256 == 1) ∧
    Err.eof = Err.eof :=
  ⟨(c6_byteorder_not_validated 113 midBo3 bo3S1).1 rfl,
   (c6_byteorder_not_validated 99 mid99 hdr99).2 .eof hdr99 rfl⟩

/-- C9: for every legacy-dialect reader state, `PrepareDataReading` sets the
    data offset to the cursor position plus 5 for exactly version 114, and to
    the cursor position with no adjustment for every other legacy version. -/
theorem c9_legacy_data_offset (s : RSt) (hv : s.header.format_version < 117)
    (r : Except Err Unit) (s1 : RSt) (h : PrepareDataReading s = (r, s1)) :
    s1.dataLocation = s.pos + (if s.header.format_version = 114 then 5 else 0) := by
  have hnot : ¬ s.header.format_version ≥ 117 := by omega
  unfold PrepareDataReading at h
  by_cases h114 : s.header.format_version = 114
  · rw [if_pos h114]
    cases hm : ctMap s.vars with
    | ok cts =>
      simp only [bindM_def, getS_def, if_neg hnot, if_pos h114, modifyS_def,
        liftE_eq, hm] at h
      injection h with ha hb
      rw [← hb]
    | error e =>
      simp only [bindM_def, getS_def, if_neg hnot, if_pos h114, modifyS_def,
        liftE_eq, hm] at h
      injection h with ha hb
      rw [← hb]
  · rw [if_neg h114]
    cases hm : ctMap s.vars with
    | ok cts =>
      simp only [bindM_def, getS_def, if_neg hnot, if_neg h114, modifyS_def,
        liftE_eq, pureM_def, hm] at h
      injection h with ha hb
      rw [← hb]
      rfl
    | error e =>
      simp only [bindM_def, getS_def, if_neg hnot, if_neg h114, modifyS_def,
        liftE_eq, pureM_def, hm] at h
      injection h with ha hb
      rw [← hb]
      rfl

/-- C9 witness: a version-114 state gets the +5 adjustment, a version-113
    state does not. -/
theorem c9_witness :
    (PrepareDataReading legacyPrepState114).2.dataLocation =
      legacyPrepState114.pos +
        (if legacyPrepState114.header.format_version = 114 then 5 else 0) ∧
    (PrepareDataReading legacyPrepState113).2.dataLocation =
      legacyPrepState113.pos +
        (if legacyPrepState113.header.format_version = 114 then 5 else 0) :=
  ⟨c9_legacy_data_offset legacyPrepState114 (by decide) _ _ rfl,
   c9_legacy_data_offset legacyPrepState113 (by decide) _ _ rfl⟩

/-- C10: `ReadNullTerminatedString` on a successfully read buffer of
    max_length bytes — the read used for the NUL-padded name, format, label,
    value-label-name, data-label and timestamp fields — returns the prefix
    strictly before the first NUL when one is present, and the empty string,
    not the whole buffer, when no byte is NUL. -/
theorem c10_nul_padded_fields (maxLength : Nat) (buf : List Nat)
    (_h1 : 1 ≤ maxLength) (_h2 : buf.length = maxLength) :
    (0 ∈ buf → nullTerminated buf = buf.takeWhile (fun b => !(b == 0))) ∧
    (0 ∉ buf → nullTerminated buf = []) := by
  refine ⟨fun h => nullTerminated_of_mem buf h, fun h => ?_⟩
  unfold nullTerminated ntsLen
  rw [firstNulIdx_eq_none buf h]
  rfl

/-- C10 witness: a buffer with an inner NUL keeps its prefix, a NUL-free
    buffer collapses to the empty string. -/
theorem c10_witness :
    nullTerminated [97, 0, 98] = List.takeWhile (fun b => !(b == 0)) [97, 0, 98] ∧
    nullTerminated [99, 100] = [] :=
  ⟨(c10_nul_padded_fields 3 [97, 0, 98] (by decide) (by decide)).1 (by decide),
   (c10_nul_padded_fields 2 [99, 100] (by decide) (by decide)).2 (by decide)⟩

end StataDta
